import Mathlib

/-!
News controller (`src/controllers/noticias-controller.js`)

A shallow embedding of the data-access functions of the news controller:
`getNoticias`, `getNoticiaById`, `getCountNoticias`, `addNoticia`,
`addNoticiaPC`, `modificarNoticia` and `eliminarNoticia`.

Every function of the controller is `async` and talks to a document store.
Here a call is a function from the world before the call to the outcome of the
call (`Except Falla _`) paired with the world after it.  The world holds the
three collections, the identifier generator, the clock, the outcome of the
store requests still to come and the list of attachment-store calls issued so
far.
-/

namespace NoticiasController

/-! ## Data model -/

/-- A structurally valid store identifier.  Identifiers are generated in
increasing order, so a greater identifier is a more recent one. -/
abbrev ObjectId := Nat

/-- A value handed to the store where it expects an identifier: either it
casts to an `ObjectId`, or it is some other text and the cast rejects it. -/
inductive IdValor where
  | valido (id : ObjectId)
  | malformado (crudo : String)
deriving DecidableEq, Repr

/-- A record of the department collection. -/
structure Departamento where
  _id : ObjectId
  nombre : String
deriving DecidableEq, Repr

/-- A record of the attachment collection. -/
structure Archivo where
  _id : ObjectId
  nombre : String
deriving DecidableEq, Repr

/-- A record of the news collection as it is stored: the department and the
attachments are references. -/
structure Noticia where
  _id : ObjectId
  departamento : ObjectId
  contenido : String
  fechaPublicacion : Nat
  archivos : List ObjectId
deriving DecidableEq, Repr

/-- A news document in memory: the stored record `doc`, the values that
`populate("departamento")` and `populate("archivos")` put in the place of the
references, whether the document has not been inserted yet, and the cast error
recorded when the document was constructed, if any. -/
structure Documento where
  doc : Noticia
  departamento : Option Departamento
  archivos : List Archivo
  isNew : Bool
  errorValidacion : Option String
deriving DecidableEq, Repr

/-- An attachment descriptor, an element of the parsed `stringArchivos`. -/
structure Descriptor where
  ref : String
deriving DecidableEq, Repr

/-- An uploaded file payload, an element of `files`. -/
structure Fichero where
  nombre : String
deriving DecidableEq, Repr

/-- The failures an operation can end with.  The first three come from the
store, `typeError` and `syntaxError` from the language runtime, the last two
from `utilities/errorHandler.js`. -/
inductive Falla where
  | castError (message : String)
  | driver (message : String)
  | validacion (message : String)
  | typeError (message : String)
  | syntaxError (message : String)
  | invalidID (entidad : String) (message : String)
  | notFound (entidad : String)
deriving DecidableEq, Repr

/-- The `message` property of a failure. -/
def Falla.message : Falla → String
  | .castError s => s
  | .driver s => s
  | .validacion s => s
  | .typeError s => s
  | .syntaxError s => s
  | .invalidID e s => e ++ ": " ++ s
  | .notFound e => e

/-- A call issued to the attachment subsystem (`archivos-controller.js`). -/
inductive Llamada where
  | publicarArchivo (archivo : Descriptor)
  | crearArchivos (files : List Fichero)
  | eliminarArchivo (id : ObjectId)
deriving DecidableEq, Repr

/-- The world the controller runs in.  `noticias` is in insertion order.
`fallas` gives the outcome of the store requests to come, one entry per
request: `some e` is a driver failure with message `e` (a lost connection, a
serialization error), `none` and a missing entry are a request that goes
through. -/
structure Mundo where
  noticias : List Noticia
  departamentos : List Departamento
  archivos : List Archivo
  proximoId : ObjectId
  reloj : Nat
  fallas : List (Option String)
  llamadas : List Llamada
deriving DecidableEq, Repr

/-- The store invariant on the news collection: the store keeps `_id` unique,
and every identifier in use came out of the generator. -/
def Mundo.Integro (m : Mundo) : Prop :=
  (m.noticias.map (fun n => n._id)).Nodup ∧ ∀ n ∈ m.noticias, n._id < m.proximoId

instance (m : Mundo) : Decidable m.Integro := by
  unfold Mundo.Integro; infer_instance

/-- What the result of parsing `stringArchivos` can be: an array of
descriptors, or a value without a `map` method. -/
inductive ValorJson where
  | arreglo (elementos : List Descriptor)
  | otro
deriving DecidableEq, Repr

/-- The parts the controller imports or calls that are not in this file's
source: the department lookup of `departamentos-controller.js`, the bulk
creation of attachments of `archivos-controller.js` (its result once awaited)
and the runtime's `JSON.parse`. -/
structure Entorno where
  getDepartamentoById : IdValor → Except Falla (Option Departamento)
  crearArchivos : List Fichero → Except Falla (List Archivo)
  jsonParse : String → Except Falla ValorJson

/-! ## The error helpers -/

/-- Modelled from the spec: `utilities/errorHandler.js` is not in the source;
the spec has a lookup on a malformed identifier fail with `InvalidIdentifier`,
"re-signaled with the entity name and underlying message". -/
def throwInvalidIDError {α : Type} (entidad : String) (message : String) : Except Falla α :=
  .error (.invalidID entidad message)

/-- Modelled from the spec: `utilities/errorHandler.js` is not in the source;
the spec has an operation on a missing entity fail with `NotFound` of that
entity. -/
def throwNotFoundException {α : Type} (entidad : String) : Except Falla α :=
  .error (.notFound entidad)

/-! ## The store -/

/-- The message of the store's cast error for a value that is no identifier. -/
def mensajeCast (crudo : String) : String :=
  "Cast to ObjectId failed for value " ++ crudo

/-- The store's cast of a value to an identifier. -/
def castObjectId : IdValor → Except Falla ObjectId
  | .valido id => .ok id
  | .malformado crudo => .error (.castError (mensajeCast crudo))

/-- One request to the store: takes the outcome of the next request. -/
def Mundo.peticion (m : Mundo) : Option String × Mundo :=
  match m.fallas with
  | [] => (none, m)
  | f :: resto => (f, { m with fallas := resto })

/-- The effect of `.populate("departamento")` on one document: the referenced
department, absent when no department has that identifier. -/
def populateDepartamento (m : Mundo) (d : Documento) : Documento :=
  { d with departamento := m.departamentos.find? (fun x => x._id == d.doc.departamento) }

/-- The effect of `.populate("archivos")` on one document: the referenced
attachments in the order of the references; a reference that no attachment
has is left out. -/
def populateArchivos (m : Mundo) (d : Documento) : Documento :=
  let resueltos := d.doc.archivos.filterMap (fun r => m.archivos.find? (fun x => x._id == r))
  { d with archivos := resueltos }

/-- A stored record as a document in memory, before any `populate`. -/
def hidratar (n : Noticia) : Documento :=
  { doc := n, departamento := none, archivos := [], isNew := false, errorValidacion := none }

/-- A stored record read with `.populate("departamento").populate("archivos")`. -/
def poblar (m : Mundo) (n : Noticia) : Documento :=
  populateArchivos m (populateDepartamento m (hidratar n))

/-- The JavaScript truth value of the `idDepartamento` argument: `undefined`
and the empty string are false, any other text and any identifier are true. -/
def esVerdadero : Option IdValor → Bool
  | none => false
  | some (.malformado crudo) => crudo != ""
  | some (.valido _) => true

/-- The JavaScript truth value of the `contenido` argument of
`modificarNoticia`: `null`, an omitted argument and the empty string are
false. -/
def contenidoVerdadero : Option String → Bool
  | none => false
  | some s => s != ""

/-- The query filter of `getNoticias`: `{}` or `{departamento: {_id: v}}`. -/
inductive Filtro where
  | todos
  | departamento (v : IdValor)
deriving DecidableEq, Repr

/-- Insertion of a record in a list ordered by descending `_id`. -/
def insertarDesc (n : Noticia) : List Noticia → List Noticia
  | [] => [n]
  | x :: xs => if x._id ≤ n._id then n :: x :: xs else x :: insertarDesc n xs

/-- The order of `.sort({ _id: -1 })`: descending `_id`. -/
def ordenarDesc : List Noticia → List Noticia
  | [] => []
  | x :: xs => insertarDesc x (ordenarDesc xs)

/-- The query `Noticia.find(filter).sort({_id: -1}).skip(s).limit(l)` with the
two `populate`s, run against the store.  The filter is cast first; then one
request is made; the server refuses a negative `skip`. -/
def Noticia.find (m : Mundo) (filtro : Filtro) (skip : Int) (limit : Nat) :
    Except Falla (List Documento) × Mundo :=
  let cast : Except Falla (Option ObjectId) :=
    match filtro with
    | .todos => .ok none
    | .departamento v =>
      match castObjectId v with
      | .ok id => .ok (some id)
      | .error e => .error e
  match cast with
  | .error e => (.error e, m)
  | .ok f =>
    match m.peticion with
    | (some e, m1) => (.error (.driver e), m1)
    | (none, m1) =>
      if skip < 0 then
        (.error (.driver "Skip value must be non-negative"), m1)
      else
        let coinciden := m1.noticias.filter
          (fun n => match f with
            | none => true
            | some id => n.departamento == id)
        (.ok ((((ordenarDesc coinciden).drop skip.toNat).take limit).map (poblar m1)), m1)

/-- The query `Noticia.findById(id)` with the two `populate`s. -/
def Noticia.findById (m : Mundo) (id : IdValor) : Except Falla (Option Documento) × Mundo :=
  match castObjectId id with
  | .error e => (.error e, m)
  | .ok oid =>
    match m.peticion with
    | (some e, m1) => (.error (.driver e), m1)
    | (none, m1) => (.ok ((m1.noticias.find? (fun n => n._id == oid)).map (poblar m1)), m1)

/-- The query `Noticia.countDocuments()`. -/
def Noticia.countDocuments (m : Mundo) : Except Falla Nat × Mundo :=
  match m.peticion with
  | (some e, m1) => (.error (.driver e), m1)
  | (none, m1) => (.ok m1.noticias.length, m1)

/-- A value put in the `archivos` array given to `new Noticia`: an attachment
document, or the pending promise of publishing a descriptor. -/
inductive ValorArchivo where
  | documento (a : Archivo)
  | promesa (d : Descriptor)
deriving DecidableEq, Repr

/-- The cast of one element of `archivos` to a reference: a document casts to
its `_id`, a promise does not cast. -/
def castArchivo : ValorArchivo → Option Archivo
  | .documento a => some a
  | .promesa _ => none

/-- The cast of the `archivos` array: it succeeds when every element casts. -/
def castArchivos : List ValorArchivo → Option (List Archivo)
  | [] => some []
  | v :: vs =>
    match castArchivo v, castArchivos vs with
    | some a, some resto => some (a :: resto)
    | _, _ => none

/-- Modelled from the spec: `models/noticia.js` is not in the source; by the
spec's data model `department` is a reference to a Department and
`attachments` an ordered sequence of references to Attachment entities, and
`id` is assigned on creation.  `new Noticia(...)` takes the next identifier,
casts the department document to its reference and the attachments to theirs;
when an element of `archivos` does not cast, the path is left empty and the
cast error is recorded on the document. -/
def Noticia.nuevo (m : Mundo) (departamento : Departamento) (contenido : String)
    (fechaPublicacion : Nat) (archivos : List ValorArchivo) : Documento × Mundo :=
  let m1 := { m with proximoId := m.proximoId + 1 }
  match castArchivos archivos with
  | some docs =>
    ({ doc := { _id := m.proximoId, departamento := departamento._id, contenido := contenido,
                fechaPublicacion := fechaPublicacion, archivos := docs.map (fun a => a._id) },
       departamento := some departamento, archivos := docs, isNew := true,
       errorValidacion := none }, m1)
  | none =>
    ({ doc := { _id := m.proximoId, departamento := departamento._id, contenido := contenido,
                fechaPublicacion := fechaPublicacion, archivos := [] },
       departamento := some departamento, archivos := [], isNew := true,
       errorValidacion := some "archivos: Cast to [ObjectId] failed" }, m1)

/-- The method `save()` of a document.  A recorded cast error rejects the
save before any request.  A new document is inserted at the end of the
collection; for a document read from the store the one path this controller
assigns, `contenido`, is written to the record with the document's `_id`. -/
def Documento.save (d : Documento) (m : Mundo) : Except Falla Documento × Mundo :=
  match d.errorValidacion with
  | some e => (.error (.validacion e), m)
  | none =>
    match m.peticion with
    | (some e, m1) => (.error (.driver e), m1)
    | (none, m1) =>
      if d.isNew then
        (.ok { d with isNew := false }, { m1 with noticias := m1.noticias ++ [d.doc] })
      else
        let escritas := m1.noticias.map
          (fun x => if x._id = d.doc._id then { x with contenido := d.doc.contenido } else x)
        (.ok d, { m1 with noticias := escritas })

/-- Modelled from the spec: the method `delete()` of a document comes with
`models/noticia.js`, which is not in the source; the spec has it delete "the
NewsItem record itself" and return the deletion result.  The record with the
document's `_id` is removed (the first one, as the store deletes one record). -/
def Documento.delete (d : Documento) (m : Mundo) : Except Falla Documento × Mundo :=
  match m.peticion with
  | (some e, m1) => (.error (.driver e), m1)
  | (none, m1) =>
    (.ok d, { m1 with noticias := m1.noticias.eraseP (fun x => x._id == d.doc._id) })

/-! ## The controller -/

/-- `getNoticias(index = 1, idDepartamento = undefined)`. -/
def getNoticias (m : Mundo) (index : Int) (idDepartamento : Option IdValor) :
    Except Falla (List Documento) × Mundo :=
  let queryFilter : Filtro :=
    match idDepartamento with
    | some v => if esVerdadero idDepartamento then .departamento v else .todos
    | none => .todos
  Noticia.find m queryFilter ((index - 1) * 5) 5

/-- `getNoticiaById(idNoticia)`: the lookup, and every failure of the lookup
handed to `throwInvalidIDError("Noticia", error.message)`. -/
def getNoticiaById (m : Mundo) (idNoticia : IdValor) : Except Falla (Option Documento) × Mundo :=
  match Noticia.findById m idNoticia with
  | (.ok r, m1) => (.ok r, m1)
  | (.error error, m1) => (throwInvalidIDError "Noticia" error.message, m1)

/-- `getCountNoticias()`. -/
def getCountNoticias (m : Mundo) : Except Falla Nat × Mundo :=
  Noticia.countDocuments m

/-- `addNoticia({deptoId, contenido, stringArchivos})`.  The callback given to
`map` is `async`: each call of it calls `publicarArchivo` and returns a
promise, so `archivos` is a list of promises and the calls are issued in
order. -/
def addNoticia (env : Entorno) (m : Mundo) (deptoId : IdValor) (contenido : String)
    (stringArchivos : String) : Except Falla Documento × Mundo :=
  match env.getDepartamentoById deptoId with
  | .error e => (.error e, m)
  | .ok none => (throwNotFoundException "Departamento", m)
  | .ok (some departamento) =>
    match env.jsonParse stringArchivos with
    | .error e => (.error e, m)
    | .ok .otro => (.error (.typeError "map is not a function"), m)
    | .ok (.arreglo descriptores) =>
      let archivos := descriptores.map ValorArchivo.promesa
      let m1 := { m with llamadas := m.llamadas ++ descriptores.map Llamada.publicarArchivo }
      let (noticia, m2) := Noticia.nuevo m1 departamento contenido m1.reloj archivos
      noticia.save m2

/-- `addNoticiaPC({deptoId, contenido, files})`: the attachments are created
and awaited before the document is built. -/
def addNoticiaPC (env : Entorno) (m : Mundo) (deptoId : IdValor) (contenido : String)
    (files : List Fichero) : Except Falla Documento × Mundo :=
  match env.getDepartamentoById deptoId with
  | .error e => (.error e, m)
  | .ok none => (throwNotFoundException "Departamento", m)
  | .ok (some departamento) =>
    let m1 := { m with llamadas := m.llamadas ++ [Llamada.crearArchivos files] }
    match env.crearArchivos files with
    | .error e => (.error e, m1)
    | .ok archivos =>
      let (noticia, m2) :=
        Noticia.nuevo m1 departamento contenido m1.reloj (archivos.map ValorArchivo.documento)
      noticia.save m2

/-- `modificarNoticia(idNoticia, contenido = null)`. -/
def modificarNoticia (m : Mundo) (idNoticia : IdValor) (contenido : Option String) :
    Except Falla Documento × Mundo :=
  match getNoticiaById m idNoticia with
  | (.error e, m1) => (.error e, m1)
  | (.ok none, m1) => (throwNotFoundException "Noticia", m1)
  | (.ok (some noticia), m1) =>
    let noticia1 : Documento :=
      match contenido with
      | some c =>
        if contenidoVerdadero contenido then { noticia with doc := { noticia.doc with contenido := c } }
        else noticia
      | none => noticia
    noticia1.save m1

/-- `eliminarNoticia(idNoticia)`: one `eliminarArchivo` call is issued for each
element of the populated `noticia.archivos`, none of them awaited, and then the
document is deleted. -/
def eliminarNoticia (m : Mundo) (idNoticia : IdValor) : Except Falla Documento × Mundo :=
  match getNoticiaById m idNoticia with
  | (.error e, m1) => (.error e, m1)
  | (.ok none, m1) => (throwNotFoundException "Noticia", m1)
  | (.ok (some noticia), m1) =>
    let emitidas := noticia.archivos.map (fun archivo => Llamada.eliminarArchivo archivo._id)
    let m2 := { m1 with llamadas := m1.llamadas ++ emitidas }
    noticia.delete m2

/-! ## A concrete world -/

/-- A world with seven news items, two departments and one stored attachment;
the second item refers to an attachment, 7, that is not in the store. -/
def mundoEjemplo : Mundo :=
  { noticias :=
      [{ _id := 1, departamento := 1, contenido := "uno", fechaPublicacion := 10, archivos := [] },
       { _id := 2, departamento := 2, contenido := "dos", fechaPublicacion := 20, archivos := [7, 8] },
       { _id := 3, departamento := 1, contenido := "tres", fechaPublicacion := 30, archivos := [8] },
       { _id := 4, departamento := 1, contenido := "cuatro", fechaPublicacion := 40, archivos := [] },
       { _id := 5, departamento := 1, contenido := "cinco", fechaPublicacion := 50, archivos := [] },
       { _id := 6, departamento := 1, contenido := "seis", fechaPublicacion := 60, archivos := [] },
       { _id := 7, departamento := 1, contenido := "siete", fechaPublicacion := 70, archivos := [] }],
    departamentos := [{ _id := 1, nombre := "Salud" }, { _id := 2, nombre := "Educacion" }],
    archivos := [{ _id := 8, nombre := "informe.pdf" }],
    proximoId := 8,
    reloj := 1000,
    fallas := [],
    llamadas := [] }

/-- The second news item of `mundoEjemplo`. -/
def noticiaDos : Noticia :=
  { _id := 2, departamento := 2, contenido := "dos", fechaPublicacion := 20, archivos := [7, 8] }

/-- The third news item of `mundoEjemplo`; both its attachments are stored. -/
def noticiaTres : Noticia :=
  { _id := 3, departamento := 1, contenido := "tres", fechaPublicacion := 30, archivos := [8] }

/-- The world `mundoEjemplo` when the next store request fails in the driver. -/
def mundoCaido : Mundo :=
  { mundoEjemplo with fallas := [some "ECONNRESET"] }

/-- The world `mundoEjemplo` when the second store request fails in the driver. -/
def mundoCaidoLuego : Mundo :=
  { mundoEjemplo with fallas := [none, some "ECONNRESET"] }

/-- The JSON text of an array with the one descriptor `a1`. -/
def textoUnDescriptor : String := "[\"a1\"]"

/-- An environment for `mundoEjemplo`.  The department lookup resolves the
identifiers of the stored departments, 1 and 2, and no other.  The parser
agrees with `JSON.parse` on the texts used below: `[]` is the empty array,
`textoUnDescriptor` an array of one descriptor, `null` a value without a `map`
method, and `[a1]`, like the other texts that are not JSON, a syntax error. -/
def entornoEjemplo : Entorno :=
  { getDepartamentoById := fun v =>
      match v with
      | .valido id => .ok (mundoEjemplo.departamentos.find? (fun x => x._id == id))
      | .malformado crudo => .error (.invalidID "Departamento" (mensajeCast crudo)),
    crearArchivos := fun files =>
      .ok (files.map (fun f => ({ _id := 50, nombre := f.nombre } : Archivo))),
    jsonParse := fun s =>
      if s = "[]" then .ok (.arreglo [])
      else if s = textoUnDescriptor then .ok (.arreglo [{ ref := "a1" }])
      else if s = "null" then .ok .otro
      else .error (.syntaxError "Unexpected token") }

/-! ## The order of a listing -/

theorem insertarDesc_perm (n : Noticia) (l : List Noticia) :
    (insertarDesc n l).Perm (n :: l) := by
  induction l with
  | nil => exact List.Perm.refl _
  | cons x xs ih =>
    unfold insertarDesc
    split
    · exact List.Perm.refl _
    · exact (List.Perm.cons x ih).trans (List.Perm.swap n x xs)

theorem ordenarDesc_perm (l : List Noticia) : (ordenarDesc l).Perm l := by
  induction l with
  | nil => exact List.Perm.refl _
  | cons x xs ih =>
    unfold ordenarDesc
    exact (insertarDesc_perm x _).trans (List.Perm.cons x ih)

theorem insertarDesc_pairwise (n : Noticia) (l : List Noticia)
    (h : l.Pairwise (fun a b => b._id ≤ a._id)) :
    (insertarDesc n l).Pairwise (fun a b => b._id ≤ a._id) := by
  induction l with
  | nil => simp [insertarDesc]
  | cons x xs ih =>
    unfold insertarDesc
    rw [List.pairwise_cons] at h
    split
    · rename_i hle
      refine List.pairwise_cons.2 ⟨?_, List.pairwise_cons.2 h⟩
      intro y hy
      rcases List.mem_cons.1 hy with rfl | hy
      · exact hle
      · exact Nat.le_trans (h.1 y hy) hle
    · rename_i hgt
      refine List.pairwise_cons.2 ⟨?_, ih h.2⟩
      intro y hy
      rcases List.mem_cons.1 ((insertarDesc_perm n xs).subset hy) with rfl | hy
      · exact Nat.le_of_lt (Nat.lt_of_not_le hgt)
      · exact h.1 y hy

theorem ordenarDesc_pairwise (l : List Noticia) :
    (ordenarDesc l).Pairwise (fun a b => b._id ≤ a._id) := by
  induction l with
  | nil => simp [ordenarDesc]
  | cons x xs ih =>
    unfold ordenarDesc
    exact insertarDesc_pairwise x _ ih

/-- With distinct identifiers the order of a listing is strict. -/
theorem ordenarDesc_pairwise_lt (l : List Noticia) (h : (l.map (fun n => n._id)).Nodup) :
    (ordenarDesc l).Pairwise (fun a b => b._id < a._id) := by
  have hnd : ((ordenarDesc l).map (fun n => n._id)).Nodup :=
    ((ordenarDesc_perm l).map _).nodup_iff.2 h
  have hne : (ordenarDesc l).Pairwise (fun a b => a._id ≠ b._id) := by
    rw [List.Nodup, List.pairwise_map] at hnd
    exact hnd
  refine ((ordenarDesc_pairwise l).and hne).imp ?_
  intro a b hab
  have h1 : b._id ≤ a._id := hab.1
  have h2 : a._id ≠ b._id := hab.2
  exact Nat.lt_of_le_of_ne h1 (Ne.symm h2)

@[simp] theorem poblar_doc (m : Mundo) (n : Noticia) : (poblar m n).doc = n := rfl

@[simp] theorem peticion_sin_fallas (m : Mundo) (h : m.fallas = []) : m.peticion = (none, m) := by
  simp [Mundo.peticion, h]

/-- What `getNoticias` computes when the store answers. -/
theorem getNoticias_eq (m : Mundo) (k : Nat) (d : Option ObjectId) (hk : 1 ≤ k)
    (hf : m.fallas = []) :
    getNoticias m (k : Int) (d.map IdValor.valido) =
      (.ok ((((ordenarDesc (m.noticias.filter
        (fun n => decide (d = none ∨ d = some n.departamento)))).drop ((k - 1) * 5)).take 5).map
          (poblar m)), m) := by
  have hskip : ¬ (((k : Int) - 1) * 5 < 0) := by omega
  have hnat : (((k : Int) - 1) * 5).toNat = (k - 1) * 5 := by omega
  cases d with
  | none =>
    simp [getNoticias, Noticia.find, hf, hskip, hnat]
  | some id =>
    have hp : (fun n : Noticia => n.departamento == id) =
        (fun n : Noticia => decide (id = n.departamento)) := by
      funext n
      by_cases h : n.departamento = id
      · simp [h]
      · have h2 : ¬ id = n.departamento := fun e => h e.symm
        simp [h, h2]
    simp [getNoticias, Noticia.find, hf, hskip, hnat, esVerdadero, castObjectId, hp]

/-- C1. With the store answering, `getNoticias(k, d)` for a page index
`k ≥ 1` and an optional department identifier `d` returns the elements at
positions `(k-1)*5 .. (k-1)*5+4` of the sequence `orden`, which holds exactly
the news items whose department reference is `d` (all of them when `d` is not
given) in descending order of identifier; so the page has at most 5 items,
each of them belongs to department `d` when `d` is given, and the page is
empty when `(k-1)*5` is at least the number of matching items.  The call
leaves the world as it was. -/
theorem getNoticias_pagina (m : Mundo) (k : Nat) (d : Option ObjectId) (hk : 1 ≤ k)
    (hf : m.fallas = []) :
    ∃ orden : List Noticia,
      orden.Perm (m.noticias.filter (fun n => decide (d = none ∨ d = some n.departamento))) ∧
      orden.Pairwise (fun a b => b._id ≤ a._id) ∧
      ∃ pagina : List Documento,
        getNoticias m (k : Int) (d.map IdValor.valido) = (.ok pagina, m) ∧
        pagina = ((orden.drop ((k - 1) * 5)).take 5).map (poblar m) ∧
        (∀ i, i < 5 → pagina[i]? = (orden[(k - 1) * 5 + i]?).map (poblar m)) ∧
        (∀ i, 5 ≤ i → pagina[i]? = none) ∧
        pagina.length ≤ 5 ∧
        (∀ id, d = some id → ∀ x ∈ pagina, x.doc.departamento = id) ∧
        (orden.length ≤ (k - 1) * 5 → pagina = []) := by
  refine ⟨ordenarDesc (m.noticias.filter (fun n => decide (d = none ∨ d = some n.departamento))),
    ordenarDesc_perm _, ordenarDesc_pairwise _, _, getNoticias_eq m k d hk hf, rfl, ?_, ?_, ?_, ?_, ?_⟩
  · intro i hi
    simp [List.getElem?_take, hi, List.getElem?_drop]
  · intro i hi
    apply List.getElem?_eq_none
    simp only [List.length_map, List.length_take]
    omega
  · simp only [List.length_map, List.length_take]
    omega
  · intro id hd x hx
    rw [List.mem_map] at hx
    obtain ⟨n, hn, rfl⟩ := hx
    have h1 := (ordenarDesc_perm _).subset (List.mem_of_mem_drop (List.mem_of_mem_take hn))
    rw [List.mem_filter] at h1
    have h2 := h1.2
    simp [hd] at h2
    simp [h2]
  · intro hlen
    rw [List.drop_eq_nil_of_le hlen]
    rfl

/-- Witness of C1: the second page of department 1 in `mundoEjemplo`. -/
theorem getNoticias_pagina_witness :
    ∃ orden : List Noticia,
      orden.Perm (mundoEjemplo.noticias.filter
        (fun n => decide ((some 1 : Option ObjectId) = none ∨ some 1 = some n.departamento))) ∧
      orden.Pairwise (fun a b => b._id ≤ a._id) ∧
      ∃ pagina : List Documento,
        getNoticias mundoEjemplo ((2 : Nat) : Int) (Option.map IdValor.valido (some 1)) =
          (.ok pagina, mundoEjemplo) ∧
        pagina = ((orden.drop ((2 - 1) * 5)).take 5).map (poblar mundoEjemplo) ∧
        (∀ i, i < 5 → pagina[i]? = (orden[(2 - 1) * 5 + i]?).map (poblar mundoEjemplo)) ∧
        (∀ i, 5 ≤ i → pagina[i]? = none) ∧
        pagina.length ≤ 5 ∧
        (∀ id, (some 1 : Option ObjectId) = some id → ∀ x ∈ pagina, x.doc.departamento = id) ∧
        (orden.length ≤ (2 - 1) * 5 → pagina = []) :=
  getNoticias_pagina mundoEjemplo 2 (some 1) (by decide) rfl

/-- Consecutive slices of five put end to end are an initial segment. -/
theorem paginas_flatten (orden : List Noticia) (f : Noticia → Documento) (n : Nat) :
    ((List.range n).map (fun t => ((orden.drop (t * 5)).take 5).map f)).flatten =
      (orden.take (5 * n)).map f := by
  induction n with
  | zero => simp
  | succ n ih =>
    rw [List.range_succ, List.map_append, List.flatten_append, ih]
    have h5 : 5 * (n + 1) = 5 * n + 5 := by ring
    rw [h5, List.take_add, List.map_append]
    simp [Nat.mul_comm n 5]

/-- In a strictly descending sequence every element of an earlier slice has a
greater identifier than every element of a later slice. -/
theorem paginas_orden (orden : List Noticia) (h : orden.Pairwise (fun a b => b._id < a._id))
    (i j : Nat) (hi : 1 ≤ i) (hij : i < j) (a b : Noticia)
    (ha : a ∈ (orden.drop ((i - 1) * 5)).take 5) (hb : b ∈ (orden.drop ((j - 1) * 5)).take 5) :
    b._id < a._id := by
  have hsplit := List.take_append_drop ((i - 1) * 5 + 5) orden
  rw [← hsplit, List.pairwise_append] at h
  apply h.2.2
  · rw [List.take_add]
    exact List.mem_append_right _ ha
  · have hb1 := List.mem_of_mem_take hb
    have hle : (j - 1) * 5 = ((i - 1) * 5 + 5) + ((j - 1) * 5 - ((i - 1) * 5 + 5)) := by omega
    rw [hle, ← List.drop_drop] at hb1
    exact List.mem_of_mem_drop hb1

/-- C2. With the store answering and identifiers unique, for a fixed
collection and department filter: pages `i < j` (both at least 1) of
`getNoticias` share no item, every item of page `i` has a greater identifier
than every item of page `j`, and pages `1, ..., n` put end to end are the
first `5*n` items of `orden`, the matching items in strictly descending order
of identifier. -/
theorem getNoticias_paginas (m : Mundo) (d : Option ObjectId) (hf : m.fallas = [])
    (hI : m.Integro) :
    ∃ orden : List Noticia,
      orden.Perm (m.noticias.filter (fun n => decide (d = none ∨ d = some n.departamento))) ∧
      orden.Pairwise (fun a b => b._id < a._id) ∧
      (∀ i j : Nat, 1 ≤ i → i < j →
        ∃ pi pj : List Documento,
          getNoticias m (i : Int) (d.map IdValor.valido) = (.ok pi, m) ∧
          getNoticias m (j : Int) (d.map IdValor.valido) = (.ok pj, m) ∧
          (∀ x ∈ pi, ∀ y ∈ pj, y.doc._id < x.doc._id) ∧
          (∀ x ∈ pi, x ∉ pj)) ∧
      (∀ n : Nat, ∃ ps : List (List Documento),
          ps.length = n ∧
          (∀ t, t < n → ∃ p, ps[t]? = some p ∧
            getNoticias m ((t + 1 : Nat) : Int) (d.map IdValor.valido) = (.ok p, m)) ∧
          ps.flatten = (orden.take (5 * n)).map (poblar m)) := by
  have hnd : ((m.noticias.filter
      (fun n => decide (d = none ∨ d = some n.departamento))).map (fun n => n._id)).Nodup :=
    hI.1.sublist ((List.filter_sublist _).map _)
  have hlt := ordenarDesc_pairwise_lt _ hnd
  have hcross : ∀ i j : Nat, 1 ≤ i → i < j →
      ∀ x ∈ (((ordenarDesc (m.noticias.filter
          (fun n => decide (d = none ∨ d = some n.departamento)))).drop ((i - 1) * 5)).take 5).map
            (poblar m),
      ∀ y ∈ (((ordenarDesc (m.noticias.filter
          (fun n => decide (d = none ∨ d = some n.departamento)))).drop ((j - 1) * 5)).take 5).map
            (poblar m), y.doc._id < x.doc._id := by
    intro i j hi hij x hx y hy
    rw [List.mem_map] at hx hy
    obtain ⟨a, ha, rfl⟩ := hx
    obtain ⟨b, hb, rfl⟩ := hy
    exact paginas_orden _ hlt i j hi hij a b ha hb
  refine ⟨_, ordenarDesc_perm _, hlt, ?_, ?_⟩
  · intro i j hi hij
    refine ⟨_, _, getNoticias_eq m i d hi hf, getNoticias_eq m j d (by omega) hf,
      hcross i j hi hij, ?_⟩
    intro x hx hxj
    exact Nat.lt_irrefl _ (hcross i j hi hij x hx x hxj)
  · intro n
    refine ⟨(List.range n).map (fun t => (((ordenarDesc (m.noticias.filter
      (fun n => decide (d = none ∨ d = some n.departamento)))).drop (t * 5)).take 5).map
        (poblar m)), by simp, ?_, paginas_flatten _ _ n⟩
    intro t ht
    refine ⟨_, ?_, getNoticias_eq m (t + 1) d (by omega) hf⟩
    simp [ht]

/-- Witness of C2: pages 1 and 2 of department 1 in `mundoEjemplo`. -/
theorem getNoticias_paginas_witness :
    ∃ pi pj : List Documento,
      getNoticias mundoEjemplo ((1 : Nat) : Int) (Option.map IdValor.valido (some 1)) =
        (.ok pi, mundoEjemplo) ∧
      getNoticias mundoEjemplo ((2 : Nat) : Int) (Option.map IdValor.valido (some 1)) =
        (.ok pj, mundoEjemplo) ∧
      (∀ x ∈ pi, ∀ y ∈ pj, y.doc._id < x.doc._id) ∧
      (∀ x ∈ pi, x ∉ pj) := by
  obtain ⟨_, _, _, h, _⟩ := getNoticias_paginas mundoEjemplo (some 1) rfl (by decide)
  exact h 1 2 (by decide) (by decide)

/-! ## Lookup by identifier -/

/-- With unique identifiers the lookup of the identifier of a stored record
finds that record. -/
theorem find_por_id (l : List Noticia) (h : (l.map (fun n => n._id)).Nodup) (n : Noticia)
    (hn : n ∈ l) : l.find? (fun x => x._id == n._id) = some n := by
  induction l with
  | nil => cases hn
  | cons x xs ih =>
    rw [List.map_cons, List.nodup_cons] at h
    rcases List.mem_cons.1 hn with rfl | hmem
    · simp
    · have hne : ¬ x._id = n._id := by
        intro he
        exact h.1 (he ▸ List.mem_map_of_mem (fun n => n._id) hmem)
      simp [List.find?_cons, hne, ih h.2 hmem]

/-- The lookup of an identifier that no record has finds nothing. -/
theorem find_ausente (l : List Noticia) (id : ObjectId) (h : ∀ n ∈ l, n._id ≠ id) :
    l.find? (fun x => x._id == id) = none := by
  rw [List.find?_eq_none]
  intro x hx
  simpa using h x hx

/-- What `getNoticiaById` computes on a well-formed identifier when the store
answers. -/
theorem getNoticiaById_valido (m : Mundo) (id : ObjectId) (hf : m.fallas = []) :
    getNoticiaById m (.valido id) =
      (.ok ((m.noticias.find? (fun n => n._id == id)).map (poblar m)), m) := by
  simp [getNoticiaById, Noticia.findById, castObjectId, hf]

/-- C3. The three outcomes of `getNoticiaById`.  On a malformed identifier the
outcome is the failure `throwInvalidIDError` builds for "Noticia" with the
message of the store's cast error.  With the store answering, on a
well-formed identifier that no record has the outcome is an absent result and
no failure, and (identifiers being unique) on the identifier of a record the
outcome is that record, populated.  The world is as it was in each case. -/
theorem getNoticiaById_resultados (m : Mundo) :
    (∀ crudo : String, getNoticiaById m (.malformado crudo) =
      (.error (.invalidID "Noticia" (mensajeCast crudo)), m)) ∧
    (m.fallas = [] → ∀ id : ObjectId, (∀ n ∈ m.noticias, n._id ≠ id) →
      getNoticiaById m (.valido id) = (.ok none, m)) ∧
    (m.fallas = [] → m.Integro → ∀ n ∈ m.noticias,
      getNoticiaById m (.valido n._id) = (.ok (some (poblar m n)), m)) := by
  refine ⟨?_, ?_, ?_⟩
  · intro crudo
    simp [getNoticiaById, Noticia.findById, castObjectId, throwInvalidIDError, Falla.message]
  · intro hf id habs
    rw [getNoticiaById_valido m id hf, find_ausente _ id habs]
    rfl
  · intro hf hI n hn
    rw [getNoticiaById_valido m n._id hf, find_por_id _ hI.1 n hn]
    rfl

/-- Witness of C3 in `mundoEjemplo`: a malformed identifier, the absent
identifier 9 and the stored record `noticiaDos`. -/
theorem getNoticiaById_resultados_witness :
    getNoticiaById mundoEjemplo (.malformado "abc") =
      (.error (.invalidID "Noticia" (mensajeCast "abc")), mundoEjemplo) ∧
    getNoticiaById mundoEjemplo (.valido 9) = (.ok none, mundoEjemplo) ∧
    getNoticiaById mundoEjemplo (.valido noticiaDos._id) =
      (.ok (some (poblar mundoEjemplo noticiaDos)), mundoEjemplo) :=
  ⟨(getNoticiaById_resultados mundoEjemplo).1 "abc",
   (getNoticiaById_resultados mundoEjemplo).2.1 rfl 9 (by decide),
   (getNoticiaById_resultados mundoEjemplo).2.2 rfl (by decide) noticiaDos (by decide)⟩

/-! ## Update and delete of a missing item -/

/-- C7. With the store answering, on a well-formed identifier that no record
has, `modificarNoticia` and `eliminarNoticia` each end with the failure
`throwNotFoundException("Noticia")` builds and leave the whole world as it
was: the collection is unchanged and no attachment-store call is issued. -/
theorem noticia_ausente (m : Mundo) (id : ObjectId) (contenido : Option String)
    (hf : m.fallas = []) (habs : ∀ n ∈ m.noticias, n._id ≠ id) :
    modificarNoticia m (.valido id) contenido = (.error (.notFound "Noticia"), m) ∧
    eliminarNoticia m (.valido id) = (.error (.notFound "Noticia"), m) := by
  have h : getNoticiaById m (.valido id) = (.ok none, m) := by
    rw [getNoticiaById_valido m id hf, find_ausente _ id habs]
    rfl
  constructor
  · simp [modificarNoticia, h, throwNotFoundException]
  · simp [eliminarNoticia, h, throwNotFoundException]

/-- Witness of C7: identifier 9 in `mundoEjemplo`. -/
theorem noticia_ausente_witness :
    modificarNoticia mundoEjemplo (.valido 9) (some "nuevo") =
      (.error (.notFound "Noticia"), mundoEjemplo) ∧
    eliminarNoticia mundoEjemplo (.valido 9) = (.error (.notFound "Noticia"), mundoEjemplo) :=
  noticia_ausente mundoEjemplo 9 (some "nuevo") rfl (by decide)

/-! ## Update of an item -/

/-- With unique identifiers, writing to the record with the identifier of `n`
is writing to `n`. -/
theorem escribir_por_id (l : List Noticia) (h : (l.map (fun n => n._id)).Nodup) (n : Noticia)
    (hn : n ∈ l) (c : String) :
    l.map (fun x => if x._id = n._id then { x with contenido := c } else x) =
      l.map (fun x => if x = n then { n with contenido := c } else x) := by
  apply List.map_congr_left
  intro x hx
  by_cases he : x._id = n._id
  · have hxn : x = n := List.inj_on_of_nodup_map h hx hn he
    simp [hxn]
  · have hxn : ¬ x = n := fun e => he (e ▸ rfl)
    simp [he, hxn]

/-- C5. With the store answering and identifiers unique, for a stored news
item `n` and a content argument `c` (`none` is `null` or an omitted
argument), `modificarNoticia(n._id, c)` returns the populated record `nuevo`
and stores it in the place of `n`: `nuevo` has the `_id`, department,
publication time and attachments of `n`, its content is `c` when `c` is a
non-empty text and the content of `n` otherwise, and every other record and
the rest of the world are unchanged. -/
theorem modificarNoticia_existente (m : Mundo) (n : Noticia) (c : Option String)
    (hf : m.fallas = []) (hI : m.Integro) (hn : n ∈ m.noticias) :
    ∃ nuevo : Noticia,
      nuevo._id = n._id ∧ nuevo.departamento = n.departamento ∧
      nuevo.fechaPublicacion = n.fechaPublicacion ∧ nuevo.archivos = n.archivos ∧
      nuevo.contenido = (match c with
        | some s => if s = "" then n.contenido else s
        | none => n.contenido) ∧
      modificarNoticia m (.valido n._id) c =
        (.ok (poblar m nuevo),
         { m with noticias := m.noticias.map (fun x => if x = n then nuevo else x) }) ∧
      nuevo ∈ m.noticias.map (fun x => if x = n then nuevo else x) ∧
      (∀ x ∈ m.noticias, x ≠ n → x ∈ m.noticias.map (fun x => if x = n then nuevo else x)) := by
  have hget : getNoticiaById m (.valido n._id) = (.ok (some (poblar m n)), m) := by
    rw [getNoticiaById_valido m n._id hf, find_por_id _ hI.1 n hn]
    rfl
  have hmem : ∀ nuevo : Noticia, nuevo ∈ m.noticias.map (fun x => if x = n then nuevo else x) := by
    intro nuevo
    exact List.mem_map.2 ⟨n, hn, by simp⟩
  have hotros : ∀ nuevo : Noticia, ∀ x ∈ m.noticias, x ≠ n →
      x ∈ m.noticias.map (fun x => if x = n then nuevo else x) := by
    intro nuevo x hx hne
    exact List.mem_map.2 ⟨x, hx, by simp [hne]⟩
  have hmismo : m.noticias.map (fun x => if x = n then n else x) = m.noticias := by
    conv_rhs => rw [← List.map_id m.noticias]
    apply List.map_congr_left
    intro x _
    by_cases he : x = n <;> simp [he]
  have hsame := escribir_por_id m.noticias hI.1 n hn n.contenido
  have hn_eq : ({ n with contenido := n.contenido } : Noticia) = n := rfl
  rw [hn_eq] at hsame
  cases c with
  | none =>
    refine ⟨n, rfl, rfl, rfl, rfl, rfl, ?_, hmem n, hotros n⟩
    simp [modificarNoticia, hget, Documento.save, poblar, populateArchivos, populateDepartamento,
      hidratar, hf, hsame]
  | some s =>
    by_cases hs : s = ""
    · refine ⟨n, rfl, rfl, rfl, rfl, by simp [hs], ?_, hmem n, hotros n⟩
      simp [modificarNoticia, hget, Documento.save, poblar, populateArchivos,
        populateDepartamento, hidratar, hf, hsame, contenidoVerdadero, hs]
    · refine ⟨{ n with contenido := s }, rfl, rfl, rfl, rfl, by simp [hs], ?_, hmem _, hotros _⟩
      have hw := escribir_por_id m.noticias hI.1 n hn s
      simp [modificarNoticia, hget, Documento.save, poblar, populateArchivos,
        populateDepartamento, hidratar, hf, hw, contenidoVerdadero, hs]

/-- Witness of C5: the content of `noticiaDos` is replaced in `mundoEjemplo`. -/
theorem modificarNoticia_existente_witness :
    ∃ nuevo : Noticia,
      nuevo._id = noticiaDos._id ∧ nuevo.departamento = noticiaDos.departamento ∧
      nuevo.fechaPublicacion = noticiaDos.fechaPublicacion ∧
      nuevo.archivos = noticiaDos.archivos ∧
      nuevo.contenido = (if "nuevo" = "" then noticiaDos.contenido else "nuevo") ∧
      modificarNoticia mundoEjemplo (.valido noticiaDos._id) (some "nuevo") =
        (.ok (poblar mundoEjemplo nuevo),
         { mundoEjemplo with
           noticias := mundoEjemplo.noticias.map (fun x => if x = noticiaDos then nuevo else x) }) ∧
      nuevo ∈ mundoEjemplo.noticias.map (fun x => if x = noticiaDos then nuevo else x) ∧
      (∀ x ∈ mundoEjemplo.noticias, x ≠ noticiaDos →
        x ∈ mundoEjemplo.noticias.map (fun x => if x = noticiaDos then nuevo else x)) :=
  modificarNoticia_existente mundoEjemplo noticiaDos (some "nuevo") rfl (by decide) (by decide)

/-! ## Delete of an item -/

/-- With unique identifiers, removing the first record with the identifier of
`n` is removing `n`. -/
theorem borrar_por_id (l : List Noticia) (h : (l.map (fun n => n._id)).Nodup) (n : Noticia)
    (hn : n ∈ l) : l.eraseP (fun x => x._id == n._id) = l.erase n := by
  induction l with
  | nil => cases hn
  | cons x xs ih =>
    rw [List.map_cons, List.nodup_cons] at h
    rcases List.mem_cons.1 hn with rfl | hmem
    · simp
    · have hne : ¬ x._id = n._id := by
        intro he
        exact h.1 (he ▸ List.mem_map_of_mem (fun n => n._id) hmem)
      have hxn : ¬ x = n := fun e => hne (e ▸ rfl)
      have hb : (x == n) = false := by simpa using hxn
      have hbid : (x._id == n._id) = false := beq_eq_false_iff_ne.2 hne
      rw [List.eraseP_cons, List.erase_cons, hb, hbid, ih h.2 hmem]
      rfl

/-- With unique identifiers, once `n` is removed no record has its identifier. -/
theorem id_libre_tras_borrar (l : List Noticia) (h : (l.map (fun n => n._id)).Nodup)
    (n : Noticia) (hn : n ∈ l) : ∀ x ∈ l.erase n, x._id ≠ n._id := by
  have hnd : l.Nodup := List.Nodup.of_map _ h
  intro x hx he
  rw [hnd.mem_erase_iff] at hx
  exact hx.1 (List.inj_on_of_nodup_map h hx.2 hn he)

/-- The identifiers of the populated attachments are the references that some
stored attachment has, in the order of the references. -/
theorem ids_poblados (almacen : List Archivo) (refs : List ObjectId) :
    (refs.filterMap (fun r => almacen.find? (fun x => x._id == r))).map
        (fun archivo => Llamada.eliminarArchivo archivo._id) =
      (refs.filter (fun r => almacen.any (fun x => x._id == r))).map Llamada.eliminarArchivo := by
  induction refs with
  | nil => rfl
  | cons r rs ih =>
    cases hfind : almacen.find? (fun x => x._id == r) with
    | none =>
      have hany : almacen.any (fun x => x._id == r) = false := by
        rw [List.find?_eq_none] at hfind
        rw [List.any_eq_false]
        intro x hx
        simpa using hfind x hx
      rw [List.filterMap_cons, hfind, List.filter_cons, hany]
      simpa using ih
    | some a =>
      have hpa : (a._id == r) = true :=
        List.find?_some (p := fun x : Archivo => x._id == r) hfind
      have hany : almacen.any (fun x => x._id == r) = true := by
        rw [List.any_eq_true]
        exact ⟨a, List.mem_of_find?_eq_some hfind, hpa⟩
      have har : a._id = r := by simpa using hpa
      rw [List.filterMap_cons, hfind, List.filter_cons, hany]
      simp only [List.map_cons, if_true, har]
      rw [ih]

/-- C6, as amended.  With the store answering and identifiers unique, for a
stored news item `n`, `eliminarNoticia(n._id)` removes `n` and only `n` from
the collection, a following `getNoticiaById(n._id)` returns an absent result,
and the attachment-store calls issued are one `eliminarArchivo(r)` for each
reference `r` of `n.archivos` that some stored attachment has, in the order of
the references, and nothing else; a reference that no stored attachment has
gets no call. -/
theorem eliminarNoticia_existente (m : Mundo) (n : Noticia) (hf : m.fallas = [])
    (hI : m.Integro) (hn : n ∈ m.noticias) :
    ∃ m1 : Mundo,
      eliminarNoticia m (.valido n._id) = (.ok (poblar m n), m1) ∧
      m1.noticias = m.noticias.erase n ∧
      (∀ x, x ∈ m1.noticias ↔ x ≠ n ∧ x ∈ m.noticias) ∧
      getNoticiaById m1 (.valido n._id) = (.ok none, m1) ∧
      m1.llamadas = m.llamadas ++
        (n.archivos.filter (fun r => m.archivos.any (fun x => x._id == r))).map
          Llamada.eliminarArchivo ∧
      (∀ r, m.archivos.any (fun x => x._id == r) = false →
        Llamada.eliminarArchivo r ∉
          (n.archivos.filter (fun r => m.archivos.any (fun x => x._id == r))).map
            Llamada.eliminarArchivo) := by
  have hget : getNoticiaById m (.valido n._id) = (.ok (some (poblar m n)), m) := by
    rw [getNoticiaById_valido m n._id hf, find_por_id _ hI.1 n hn]
    rfl
  have hnd : m.noticias.Nodup := List.Nodup.of_map _ hI.1
  have hcalls := ids_poblados m.archivos n.archivos
  refine ⟨{ m with
      noticias := m.noticias.erase n,
      llamadas := m.llamadas ++
        (n.archivos.filter (fun r => m.archivos.any (fun x => x._id == r))).map
          Llamada.eliminarArchivo }, ?_, rfl, ?_, ?_, rfl, ?_⟩
  · have hb := borrar_por_id m.noticias hI.1 n hn
    simp only [poblar_doc] at hb ⊢
    simp [eliminarNoticia, hget, Documento.delete, hf, Mundo.peticion, hb]
    simp [poblar, populateArchivos, populateDepartamento, hidratar, hcalls]
  · intro x
    exact hnd.mem_erase_iff
  · have hf1 : ({ m with
        noticias := m.noticias.erase n,
        llamadas := m.llamadas ++
          (n.archivos.filter (fun r => m.archivos.any (fun x => x._id == r))).map
            Llamada.eliminarArchivo } : Mundo).fallas = [] := hf
    rw [getNoticiaById_valido _ n._id hf1]
    simp only []
    rw [find_ausente _ n._id (id_libre_tras_borrar m.noticias hI.1 n hn)]
    rfl
  · intro r hr hmem
    rw [List.mem_map] at hmem
    obtain ⟨r1, hr1, he⟩ := hmem
    have : r1 = r := by injection he
    subst this
    rw [List.mem_filter] at hr1
    rw [hr] at hr1
    exact Bool.noConfusion hr1.2

/-- Witness of C6 as amended: `noticiaDos` is deleted from `mundoEjemplo`. -/
theorem eliminarNoticia_existente_witness :
    ∃ m1 : Mundo,
      eliminarNoticia mundoEjemplo (.valido noticiaDos._id) =
        (.ok (poblar mundoEjemplo noticiaDos), m1) ∧
      m1.noticias = mundoEjemplo.noticias.erase noticiaDos ∧
      getNoticiaById m1 (.valido noticiaDos._id) = (.ok none, m1) ∧
      m1.llamadas = mundoEjemplo.llamadas ++
        (noticiaDos.archivos.filter
          (fun r => mundoEjemplo.archivos.any (fun x => x._id == r))).map
            Llamada.eliminarArchivo := by
  obtain ⟨m1, h1, h2, _, h4, h5, _⟩ :=
    eliminarNoticia_existente mundoEjemplo noticiaDos rfl (by decide) (by decide)
  exact ⟨m1, h1, h2, h4, h5⟩

/-- C6 as stated fails: `noticiaDos` is stored in `mundoEjemplo` and refers to
the attachments 7 and 8, of which only 8 is stored; `eliminarNoticia` on it
issues the single call `eliminarArchivo(8)`, and none for the reference 7. -/
theorem eliminarNoticia_referencia_sin_archivo :
    noticiaDos ∈ mundoEjemplo.noticias ∧
    noticiaDos.archivos = [7, 8] ∧
    (eliminarNoticia mundoEjemplo (.valido noticiaDos._id)).2.llamadas =
      [Llamada.eliminarArchivo 8] ∧
    ¬ (∀ r ∈ noticiaDos.archivos, Llamada.eliminarArchivo r ∈
        (eliminarNoticia mundoEjemplo (.valido noticiaDos._id)).2.llamadas) := by
  refine ⟨by decide, rfl, by decide, by decide⟩

/-! ## Creation of an item -/

/-- C4. For every world and every input whose department identifier the
department lookup resolves to nothing, `addNoticia` and `addNoticiaPC` end
with the failure `throwNotFoundException("Departamento")` builds (the spec's
Department) and leave the whole world as it was: no news item is stored and no
attachment-store call is issued. -/
theorem addNoticia_sin_departamento (env : Entorno) (m : Mundo) (deptoId : IdValor)
    (contenido : String) (stringArchivos : String) (files : List Fichero)
    (h : env.getDepartamentoById deptoId = .ok none) :
    addNoticia env m deptoId contenido stringArchivos =
      (.error (.notFound "Departamento"), m) ∧
    addNoticiaPC env m deptoId contenido files = (.error (.notFound "Departamento"), m) := by
  constructor
  · simp [addNoticia, h, throwNotFoundException]
  · simp [addNoticiaPC, h, throwNotFoundException]

/-- Witness of C4: no department has identifier 3, and `entornoEjemplo`
resolves it to nothing. -/
theorem addNoticia_sin_departamento_witness :
    addNoticia entornoEjemplo mundoEjemplo (.valido 3) "hola" textoUnDescriptor =
      (.error (.notFound "Departamento"), mundoEjemplo) ∧
    addNoticiaPC entornoEjemplo mundoEjemplo (.valido 3) "hola" [{ nombre := "foto.png" }] =
      (.error (.notFound "Departamento"), mundoEjemplo) :=
  addNoticia_sin_departamento entornoEjemplo mundoEjemplo (.valido 3) "hola" textoUnDescriptor
    [{ nombre := "foto.png" }] rfl

/-- A list of promises casts only when it is empty. -/
theorem castArchivos_promesas (ds : List Descriptor) :
    castArchivos (ds.map ValorArchivo.promesa) = if ds = [] then some [] else none := by
  cases ds with
  | nil => rfl
  | cons d ds => simp [castArchivos, castArchivo]

/-- What `addNoticia` does once the department is resolved and the serialized
list has at least one descriptor: the publications are issued, the document is
built with a cast error on `archivos`, and `save` rejects it; nothing is
stored. -/
theorem addNoticia_con_descriptores (env : Entorno) (m : Mundo) (deptoId : IdValor)
    (departamento : Departamento) (contenido : String) (stringArchivos : String)
    (a : Descriptor) (resto : List Descriptor)
    (hd : env.getDepartamentoById deptoId = .ok (some departamento))
    (hp : env.jsonParse stringArchivos = .ok (.arreglo (a :: resto))) :
    addNoticia env m deptoId contenido stringArchivos =
      (.error (.validacion "archivos: Cast to [ObjectId] failed"),
       { m with
         llamadas := m.llamadas ++ (a :: resto).map Llamada.publicarArchivo,
         proximoId := m.proximoId + 1 }) := by
  simp [addNoticia, hd, hp, Noticia.nuevo, castArchivos, castArchivo, Documento.save]

/-- What `addNoticia` does once the department is resolved, the serialized list
is empty and the store answers. -/
theorem addNoticia_sin_descriptores (env : Entorno) (m : Mundo) (deptoId : IdValor)
    (departamento : Departamento) (contenido : String) (stringArchivos : String)
    (hf : m.fallas = [])
    (hd : env.getDepartamentoById deptoId = .ok (some departamento))
    (hp : env.jsonParse stringArchivos = .ok (.arreglo [])) :
    addNoticia env m deptoId contenido stringArchivos =
      (.ok { doc := { _id := m.proximoId, departamento := departamento._id,
                      contenido := contenido, fechaPublicacion := m.reloj, archivos := [] },
             departamento := some departamento, archivos := [], isNew := false,
             errorValidacion := none },
       { m with
         noticias := m.noticias ++
           [{ _id := m.proximoId, departamento := departamento._id, contenido := contenido,
              fechaPublicacion := m.reloj, archivos := [] }],
         proximoId := m.proximoId + 1 }) := by
  simp [addNoticia, hd, hp, Noticia.nuevo, castArchivos, Documento.save, Mundo.peticion, hf]

/-- C8. With the store answering and identifiers unique, when the department
lookup resolves the identifier to `departamento`, a successful `addNoticia`
adds exactly one record at the end of the collection and returns it: its
`_id` is the one the generator assigns, which no earlier record has, its
department is `departamento`, its content the content given and its
publication time the current time; `getCountNoticias` is greater by exactly 1;
`getNoticiaById` on the returned `_id` yields the populated record, with that
content and department reference; every earlier record is unchanged and
identifiers stay unique. -/
theorem addNoticia_exito (env : Entorno) (m m1 : Mundo) (deptoId : IdValor)
    (departamento : Departamento) (contenido : String) (stringArchivos : String)
    (r : Documento) (hf : m.fallas = []) (hI : m.Integro)
    (hd : env.getDepartamentoById deptoId = .ok (some departamento))
    (hok : addNoticia env m deptoId contenido stringArchivos = (.ok r, m1)) :
    m1.noticias = m.noticias ++ [r.doc] ∧
    r.doc._id = m.proximoId ∧
    (∀ x ∈ m.noticias, x._id ≠ r.doc._id) ∧
    r.doc.departamento = departamento._id ∧
    r.departamento = some departamento ∧
    r.doc.contenido = contenido ∧
    r.doc.fechaPublicacion = m.reloj ∧
    getCountNoticias m = (.ok m.noticias.length, m) ∧
    getCountNoticias m1 = (.ok (m.noticias.length + 1), m1) ∧
    getNoticiaById m1 (.valido r.doc._id) = (.ok (some (poblar m1 r.doc)), m1) ∧
    m1.Integro := by
  have hparse : env.jsonParse stringArchivos = .ok (.arreglo []) := by
    cases hj : env.jsonParse stringArchivos with
    | error e => simp [addNoticia, hd, hj] at hok
    | ok v =>
      cases v with
      | otro => simp [addNoticia, hd, hj] at hok
      | arreglo ds =>
        cases ds with
        | nil => rfl
        | cons a resto =>
          rw [addNoticia_con_descriptores env m deptoId departamento contenido stringArchivos
            a resto hd hj] at hok
          simp at hok
  rw [addNoticia_sin_descriptores env m deptoId departamento contenido stringArchivos hf hd
    hparse] at hok
  simp only [Prod.mk.injEq, Except.ok.injEq] at hok
  obtain ⟨hr, hm⟩ := hok
  subst hr
  subst hm
  have hfresh : ∀ x ∈ m.noticias, x._id ≠ m.proximoId := by
    intro x hx
    exact Nat.ne_of_lt (hI.2 x hx)
  have hI1 : Mundo.Integro { m with
      noticias := m.noticias ++
        [{ _id := m.proximoId, departamento := departamento._id, contenido := contenido,
           fechaPublicacion := m.reloj, archivos := [] }],
      proximoId := m.proximoId + 1 } := by
    constructor
    · simp only [List.map_append, List.map_cons, List.map_nil]
      rw [List.nodup_append]
      refine ⟨hI.1, by simp, ?_⟩
      intro a ha hb
      rw [List.mem_map] at ha
      obtain ⟨x, hx, rfl⟩ := ha
      rw [List.mem_singleton] at hb
      exact hfresh x hx hb
    · intro x hx
      simp only [List.mem_append, List.mem_singleton] at hx
      rcases hx with hx | rfl
      · exact Nat.lt_succ_of_lt (hI.2 x hx)
      · exact Nat.lt_succ_self _
  refine ⟨rfl, rfl, hfresh, rfl, rfl, rfl, rfl, ?_, ?_, ?_, hI1⟩
  · simp [getCountNoticias, Noticia.countDocuments, hf]
  · simp [getCountNoticias, Noticia.countDocuments, Mundo.peticion, hf]
  · have hf1 : ({ m with
        noticias := m.noticias ++
          [{ _id := m.proximoId, departamento := departamento._id, contenido := contenido,
             fechaPublicacion := m.reloj, archivos := [] }],
        proximoId := m.proximoId + 1 } : Mundo).fallas = [] := hf
    have hfind := find_por_id _ hI1.1
      ({ _id := m.proximoId, departamento := departamento._id, contenido := contenido,
         fechaPublicacion := m.reloj, archivos := [] } : Noticia) (by simp)
    rw [getNoticiaById_valido _ _ hf1]
    dsimp only at hfind ⊢
    rw [hfind]
    rfl

/-- Witness of C8: a news item of department 1 with no attachments is added to
`mundoEjemplo`. -/
theorem addNoticia_exito_witness :
    ∃ (r : Documento) (m1 : Mundo),
      addNoticia entornoEjemplo mundoEjemplo (.valido 1) "hola" "[]" = (.ok r, m1) ∧
      m1.noticias = mundoEjemplo.noticias ++ [r.doc] ∧
      r.doc._id = mundoEjemplo.proximoId ∧
      (∀ x ∈ mundoEjemplo.noticias, x._id ≠ r.doc._id) ∧
      r.doc.departamento = 1 ∧
      r.doc.contenido = "hola" ∧
      r.doc.fechaPublicacion = mundoEjemplo.reloj ∧
      getCountNoticias m1 = (.ok (mundoEjemplo.noticias.length + 1), m1) ∧
      getNoticiaById m1 (.valido r.doc._id) = (.ok (some (poblar m1 r.doc)), m1) := by
  have hok := addNoticia_sin_descriptores entornoEjemplo mundoEjemplo (.valido 1)
    { _id := 1, nombre := "Salud" } "hola" "[]" rfl rfl rfl
  have h := addNoticia_exito entornoEjemplo mundoEjemplo _ (.valido 1)
    { _id := 1, nombre := "Salud" } "hola" "[]" _ rfl (by decide) rfl hok
  exact ⟨_, _, hok, h.1, h.2.1, h.2.2.1, h.2.2.2.1, h.2.2.2.2.2.1, h.2.2.2.2.2.2.1,
    h.2.2.2.2.2.2.2.2.1, h.2.2.2.2.2.2.2.2.2.1⟩

/-- C9 fails on the code.  In `mundoEjemplo` the department lookup resolves
identifier 1, and the serialized list `textoUnDescriptor`, the JSON text of an
array with the one descriptor `a1`, parses to that descriptor.  `addNoticia`
issues the publication of `a1` without awaiting it, hands the pending promise
to the document as its attachment, and the save is rejected: the outcome is a
failure, no news item is stored, and so none has the attachment list
`[publish(a1)]`. -/
theorem addNoticia_archivos_sin_esperar :
    textoUnDescriptor = String.mk ['[', '"', 'a', '1', '"', ']'] ∧
    entornoEjemplo.getDepartamentoById (.valido 1) = .ok (some { _id := 1, nombre := "Salud" }) ∧
    entornoEjemplo.jsonParse textoUnDescriptor = .ok (.arreglo [{ ref := "a1" }]) ∧
    (addNoticia entornoEjemplo mundoEjemplo (.valido 1) "hola" textoUnDescriptor).1 =
      .error (.validacion "archivos: Cast to [ObjectId] failed") ∧
    (addNoticia entornoEjemplo mundoEjemplo (.valido 1) "hola" textoUnDescriptor).2.noticias =
      mundoEjemplo.noticias ∧
    (addNoticia entornoEjemplo mundoEjemplo (.valido 1) "hola" textoUnDescriptor).2.llamadas =
      [Llamada.publicarArchivo { ref := "a1" }] := by
  have h := addNoticia_con_descriptores entornoEjemplo mundoEjemplo (.valido 1)
    { _id := 1, nombre := "Salud" } "hola" textoUnDescriptor { ref := "a1" } [] rfl rfl
  rw [h]
  exact ⟨rfl, rfl, rfl, rfl, rfl, rfl⟩

/-! ## Store failures -/

theorem peticion_con_falla (m : Mundo) (f : Option String) (resto : List (Option String))
    (h : m.fallas = f :: resto) : m.peticion = (f, { m with fallas := resto }) := by
  simp [Mundo.peticion, h]

/-- C10 as stated fails: in `mundoCaido` the identifier 2 is well-formed (the
cast accepts it) and the lookup fails in the driver with "ECONNRESET";
`getNoticiaById`, `modificarNoticia` and `eliminarNoticia` all end with the
failure `throwInvalidIDError` builds, not with the driver's failure. -/
theorem getNoticiaById_traduce_falla_del_driver :
    castObjectId (.valido 2) = .ok 2 ∧
    (Noticia.findById mundoCaido (.valido 2)).1 = .error (.driver "ECONNRESET") ∧
    (getNoticiaById mundoCaido (.valido 2)).1 = .error (.invalidID "Noticia" "ECONNRESET") ∧
    (modificarNoticia mundoCaido (.valido 2) (some "nuevo")).1 =
      .error (.invalidID "Noticia" "ECONNRESET") ∧
    (eliminarNoticia mundoCaido (.valido 2)).1 = .error (.invalidID "Noticia" "ECONNRESET") :=
  ⟨rfl, rfl, rfl, rfl, rfl⟩

/-- The lookup leaves the collection and the issued calls as they were. -/
theorem findById_conserva (m : Mundo) (id : IdValor) :
    (Noticia.findById m id).2.noticias = m.noticias ∧
    (Noticia.findById m id).2.llamadas = m.llamadas := by
  unfold Noticia.findById
  cases id with
  | malformado crudo => exact ⟨rfl, rfl⟩
  | valido oid =>
    cases hfl : m.fallas with
    | nil => simp [castObjectId, Mundo.peticion, hfl]
    | cons f resto => cases f <;> simp [castObjectId, Mundo.peticion, hfl]

/-- A list of attachment documents casts to itself. -/
theorem castArchivos_documentos (archivos : List Archivo) :
    castArchivos (archivos.map ValorArchivo.documento) = some archivos := by
  induction archivos with
  | nil => rfl
  | cons a resto ih => simp [castArchivos, castArchivo, ih]

/-- The method `save()` never ends with `NotFound`. -/
theorem save_sin_notFound (d : Documento) (m : Mundo) (entidad : String) :
    (d.save m).1 ≠ .error (.notFound entidad) := by
  unfold Documento.save
  cases d.errorValidacion with
  | some v => simp
  | none =>
    rcases hp : m.peticion with ⟨f, m1⟩
    cases f with
    | some v => simp
    | none => cases d.isNew <;> simp

/-- The method `delete()` never ends with `NotFound`. -/
theorem delete_sin_notFound (d : Documento) (m : Mundo) (entidad : String) :
    (d.delete m).1 ≠ .error (.notFound entidad) := by
  unfold Documento.delete
  rcases hp : m.peticion with ⟨f, m1⟩
  cases f <;> simp

/-- C10, as amended.  `getNoticiaById` turns every failure of the lookup, a
malformed identifier or any other store failure, into the failure
`throwInvalidIDError` builds for "Noticia" with the message of that failure,
and passes on what a lookup that succeeds returns.  On every identifier whose
lookup fails, a malformed one included, `modificarNoticia` and
`eliminarNoticia` end with that same `InvalidIdentifier` failure, store and
delete nothing and issue no attachment-store call.  A driver failure of the
request of `getNoticias`, of `getCountNoticias`, of the `save` of `addNoticia`,
of `addNoticiaPC` and of `modificarNoticia` and of the `delete` of
`eliminarNoticia` reaches the caller as that same failure, and the collection
is unchanged.  No store failure becomes `NotFound`: `modificarNoticia` and
`eliminarNoticia` end with `NotFound` only when the lookup succeeded and found
nothing. -/
theorem fallas_del_almacen (env : Entorno) (m : Mundo) (e : String)
    (resto : List (Option String)) :
    (∀ id : IdValor, (getNoticiaById m id).1 =
      match (Noticia.findById m id).1 with
      | .ok r => .ok r
      | .error err => .error (.invalidID "Noticia" err.message)) ∧
    (∀ (id : IdValor) (c : Option String) (err : Falla),
      (Noticia.findById m id).1 = .error err →
        (getNoticiaById m id).1 = .error (.invalidID "Noticia" err.message) ∧
        (modificarNoticia m id c).1 = .error (.invalidID "Noticia" err.message) ∧
        (modificarNoticia m id c).2.noticias = m.noticias ∧
        (modificarNoticia m id c).2.llamadas = m.llamadas ∧
        (eliminarNoticia m id).1 = .error (.invalidID "Noticia" err.message) ∧
        (eliminarNoticia m id).2.noticias = m.noticias ∧
        (eliminarNoticia m id).2.llamadas = m.llamadas) ∧
    (∀ (crudo : String) (c : Option String),
      (Noticia.findById m (.malformado crudo)).1 = .error (.castError (mensajeCast crudo)) ∧
      modificarNoticia m (.malformado crudo) c =
        (.error (.invalidID "Noticia" (mensajeCast crudo)), m) ∧
      eliminarNoticia m (.malformado crudo) =
        (.error (.invalidID "Noticia" (mensajeCast crudo)), m)) ∧
    (∀ (id : IdValor) (c : Option String) (entidad : String),
      ((modificarNoticia m id c).1 = .error (.notFound entidad) ∨
        (eliminarNoticia m id).1 = .error (.notFound entidad)) →
      (Noticia.findById m id).1 = .ok none) ∧
    (m.fallas = some e :: resto →
      (∀ (k : Int) (d : Option ObjectId),
        (getNoticias m k (d.map IdValor.valido)).1 = .error (.driver e) ∧
        (getNoticias m k (d.map IdValor.valido)).2.noticias = m.noticias) ∧
      (getCountNoticias m).1 = .error (.driver e) ∧
      (∀ (id : ObjectId) (c : Option String),
        (Noticia.findById m (.valido id)).1 = .error (.driver e) ∧
        (getNoticiaById m (.valido id)).1 = .error (.invalidID "Noticia" e) ∧
        (modificarNoticia m (.valido id) c).1 = .error (.invalidID "Noticia" e) ∧
        (eliminarNoticia m (.valido id)).1 = .error (.invalidID "Noticia" e)) ∧
      (∀ (deptoId : IdValor) (departamento : Departamento) (contenido s : String),
        env.getDepartamentoById deptoId = .ok (some departamento) →
        env.jsonParse s = .ok (.arreglo []) →
        (addNoticia env m deptoId contenido s).1 = .error (.driver e) ∧
        (addNoticia env m deptoId contenido s).2.noticias = m.noticias) ∧
      (∀ (deptoId : IdValor) (departamento : Departamento) (contenido : String)
        (files : List Fichero) (archivos : List Archivo),
        env.getDepartamentoById deptoId = .ok (some departamento) →
        env.crearArchivos files = .ok archivos →
        (addNoticiaPC env m deptoId contenido files).1 = .error (.driver e) ∧
        (addNoticiaPC env m deptoId contenido files).2.noticias = m.noticias)) ∧
    (m.fallas = none :: some e :: resto → m.Integro → ∀ n ∈ m.noticias, ∀ c : Option String,
      (modificarNoticia m (.valido n._id) c).1 = .error (.driver e) ∧
      (modificarNoticia m (.valido n._id) c).2.noticias = m.noticias ∧
      (eliminarNoticia m (.valido n._id)).1 = .error (.driver e) ∧
      (eliminarNoticia m (.valido n._id)).2.noticias = m.noticias) := by
  refine ⟨?_, ?_, ?_, ?_, ?_, ?_⟩
  · intro id
    unfold getNoticiaById
    rcases hq : Noticia.findById m id with ⟨res, m1⟩
    cases res <;> simp [throwInvalidIDError]
  · intro id c err herr
    have hcons := findById_conserva m id
    rcases hq : Noticia.findById m id with ⟨res, m1⟩
    rw [hq] at herr hcons
    simp only at herr hcons
    subst herr
    have hget : getNoticiaById m id = (.error (.invalidID "Noticia" err.message), m1) := by
      simp [getNoticiaById, hq, throwInvalidIDError]
    refine ⟨by rw [hget], ?_, ?_, ?_, ?_, ?_, ?_⟩ <;>
      simp [modificarNoticia, eliminarNoticia, hget, hcons.1, hcons.2]
  · intro crudo c
    have hget : getNoticiaById m (.malformado crudo) =
        (.error (.invalidID "Noticia" (mensajeCast crudo)), m) := by
      simp [getNoticiaById, Noticia.findById, castObjectId, throwInvalidIDError, Falla.message]
    refine ⟨by simp [Noticia.findById, castObjectId], ?_, ?_⟩
    · simp [modificarNoticia, hget]
    · simp [eliminarNoticia, hget]
  · intro id c entidad h
    rcases hq : Noticia.findById m id with ⟨res, m1⟩
    cases res with
    | error err =>
      have hget : getNoticiaById m id = (.error (.invalidID "Noticia" err.message), m1) := by
        simp [getNoticiaById, hq, throwInvalidIDError]
      simp [modificarNoticia, eliminarNoticia, hget] at h
    | ok r =>
      have hget : getNoticiaById m id = (.ok r, m1) := by
        simp [getNoticiaById, hq]
      cases r with
      | none => rfl
      | some d =>
        exfalso
        rcases h with h | h
        · simp only [modificarNoticia, hget] at h
          exact save_sin_notFound _ _ _ h
        · simp only [eliminarNoticia, hget] at h
          exact delete_sin_notFound _ _ _ h
  · intro hf
    have hp := peticion_con_falla m (some e) resto hf
    have hget : ∀ id : ObjectId, getNoticiaById m (.valido id) =
        (.error (.invalidID "Noticia" e), { m with fallas := resto }) := by
      intro id
      simp [getNoticiaById, Noticia.findById, castObjectId, hp, throwInvalidIDError,
        Falla.message]
    refine ⟨?_, ?_, ?_, ?_, ?_⟩
    · intro k d
      cases d <;> simp [getNoticias, Noticia.find, castObjectId, esVerdadero, hp]
    · simp [getCountNoticias, Noticia.countDocuments, hp]
    · intro id c
      refine ⟨by simp [Noticia.findById, castObjectId, hp], by rw [hget], ?_, ?_⟩ <;>
        simp [modificarNoticia, eliminarNoticia, hget]
    · intro deptoId departamento contenido s hd hj
      simp [addNoticia, hd, hj, Noticia.nuevo, castArchivos, Documento.save, Mundo.peticion, hf]
    · intro deptoId departamento contenido files archivos hd hc
      simp [addNoticiaPC, hd, hc, Noticia.nuevo, castArchivos_documentos, Documento.save,
        Mundo.peticion, hf]
  · intro hf hI n hn c
    have hp := peticion_con_falla m none (some e :: resto) hf
    have hget : getNoticiaById m (.valido n._id) =
        (.ok (some (poblar { m with fallas := some e :: resto } n)),
         { m with fallas := some e :: resto }) := by
      simp [getNoticiaById, Noticia.findById, castObjectId, hp, find_por_id _ hI.1 n hn]
    refine ⟨?_, ?_, ?_, ?_⟩
    · cases c with
      | none =>
        simp [modificarNoticia, hget, Documento.save, Mundo.peticion, poblar, populateArchivos,
          populateDepartamento, hidratar]
      | some s =>
        by_cases hs : contenidoVerdadero (some s) = true <;>
          simp [modificarNoticia, hget, Documento.save, Mundo.peticion, poblar,
            populateArchivos, populateDepartamento, hidratar, hs]
    · cases c with
      | none =>
        simp [modificarNoticia, hget, Documento.save, Mundo.peticion, poblar, populateArchivos,
          populateDepartamento, hidratar]
      | some s =>
        by_cases hs : contenidoVerdadero (some s) = true <;>
          simp [modificarNoticia, hget, Documento.save, Mundo.peticion, poblar,
            populateArchivos, populateDepartamento, hidratar, hs]
    · simp [eliminarNoticia, hget, Documento.delete, Mundo.peticion]
    · simp [eliminarNoticia, hget, Documento.delete, Mundo.peticion]

/-- Witness of C10 as amended: the first request fails in `mundoCaido`, the
second in `mundoCaidoLuego`; "abc" is a malformed identifier. -/
theorem fallas_del_almacen_witness :
    (getNoticias mundoCaido 1 (Option.map IdValor.valido none)).1 =
      .error (.driver "ECONNRESET") ∧
    (getCountNoticias mundoCaido).1 = .error (.driver "ECONNRESET") ∧
    (getNoticiaById mundoCaido (.valido 2)).1 = .error (.invalidID "Noticia" "ECONNRESET") ∧
    (modificarNoticia mundoCaido (.valido 2) (some "nuevo")).1 =
      .error (.invalidID "Noticia" (Falla.driver "ECONNRESET").message) ∧
    (eliminarNoticia mundoEjemplo (.malformado "abc")).1 =
      .error (.invalidID "Noticia" (Falla.castError (mensajeCast "abc")).message) ∧
    (addNoticia entornoEjemplo mundoCaido (.valido 1) "hola" "[]").1 =
      .error (.driver "ECONNRESET") ∧
    (addNoticiaPC entornoEjemplo mundoCaido (.valido 1) "hola" [{ nombre := "foto.png" }]).1 =
      .error (.driver "ECONNRESET") ∧
    (modificarNoticia mundoCaidoLuego (.valido noticiaDos._id) (some "nuevo")).1 =
      .error (.driver "ECONNRESET") ∧
    (eliminarNoticia mundoCaidoLuego (.valido noticiaDos._id)).1 =
      .error (.driver "ECONNRESET") :=
  have h1 := (fallas_del_almacen entornoEjemplo mundoCaido "ECONNRESET" []).2.2.2.2.1 rfl
  have h2 := (fallas_del_almacen entornoEjemplo mundoCaidoLuego "ECONNRESET" []).2.2.2.2.2 rfl
    (by decide) noticiaDos (by decide) (some "nuevo")
  have h3 := (fallas_del_almacen entornoEjemplo mundoCaido "ECONNRESET" []).2.1
    (.valido 2) (some "nuevo") (.driver "ECONNRESET") rfl
  have h4 := (fallas_del_almacen entornoEjemplo mundoEjemplo "ECONNRESET" []).2.1
    (.malformado "abc") none (.castError (mensajeCast "abc")) rfl
  ⟨(h1.1 1 none).1, h1.2.1, (h1.2.2.1 2 none).2.1, h3.2.1, h4.2.2.2.2.1,
   (h1.2.2.2.1 (.valido 1) { _id := 1, nombre := "Salud" } "hola" "[]" rfl rfl).1,
   (h1.2.2.2.2 (.valido 1) { _id := 1, nombre := "Salud" } "hola" [{ nombre := "foto.png" }]
      [{ _id := 50, nombre := "foto.png" }] rfl rfl).1,
   h2.1, h2.2.2.1⟩

/-! ## The store invariant is kept -/

/-- Writing a record with the same `_id` in the place of `n` keeps the
identifiers of the collection. -/
theorem ids_tras_escribir (l : List Noticia) (n nuevo : Noticia) (h : nuevo._id = n._id) :
    (l.map (fun x => if x = n then nuevo else x)).map (fun x => x._id) =
      l.map (fun x => x._id) := by
  rw [List.map_map]
  apply List.map_congr_left
  intro x _
  by_cases he : x = n
  · simp [he, h]
  · simp [he]

/-- The collection that `modificarNoticia` leaves has unique identifiers below
the generator when the one it found had. -/
theorem integro_tras_modificar (m : Mundo) (n nuevo : Noticia) (h : nuevo._id = n._id)
    (hI : m.Integro) :
    Mundo.Integro { m with noticias := m.noticias.map (fun x => if x = n then nuevo else x) } := by
  constructor
  · show ((m.noticias.map (fun x => if x = n then nuevo else x)).map (fun x => x._id)).Nodup
    rw [ids_tras_escribir _ n nuevo h]
    exact hI.1
  · intro x hx
    have hx1 : x ∈ m.noticias.map (fun x => if x = n then nuevo else x) := hx
    rw [List.mem_map] at hx1
    obtain ⟨y, hy, rfl⟩ := hx1
    by_cases he : y = n
    · have hlt := hI.2 y hy
      rw [he] at hlt
      simpa [he, h] using hlt
    · simpa [he] using hI.2 y hy

/-- The collection that `eliminarNoticia` leaves has unique identifiers below
the generator when the one it found had. -/
theorem integro_tras_eliminar (m : Mundo) (n : Noticia) (llamadas : List Llamada)
    (hI : m.Integro) :
    Mundo.Integro { m with noticias := m.noticias.erase n, llamadas := llamadas } := by
  constructor
  · exact hI.1.sublist ((List.erase_sublist n m.noticias).map _)
  · intro x hx
    exact hI.2 x (List.mem_of_mem_erase hx)

end NoticiasController
